import Mathlib

/-!
Verification development for the analog-tools source-patching routines.

Source files embedded here (shallow embedding over `List Char`):
  * `packages/generator/src/generators/library/utils/vite-config.ts`
    (`removeComments`, the balanced-paren scanner and `updateViteConfig`),
  * the auth init generator file (`updateAppConfig` import insertion,
    `updateViteConfig` for `ssr.noExternal`, `initAuthGenerator`),
  * `packages/generator/src/generators/library/utils/workspace.ts`
    (`getWorkspaceScope`).

JavaScript strings are modelled as `List Char`; the ad hoc regular
expressions of the source are modelled by bespoke deterministic matchers
that mirror the JS engine's leftmost-match / greedy-with-backtracking
behaviour on the concrete patterns used (each matcher carries a comment
explaining the correspondence).
-/

/-- Source text, as the character sequence of a JavaScript string. -/
abbrev Str := List Char

/-- The `\x7b` opening-brace character. -/
def obrace : Char := ("\x7b".data).headD ' '

/-- The `\x7d` closing-brace character. -/
def cbrace : Char := ("\x7d".data).headD ' '

/-- The backquote character, one of the three JS string delimiters. -/
def btick : Char := ("`".data).headD ' '

/-- JS `\s` on the character set that occurs in config sources
(space, tab, newline, carriage return, vertical tab, form feed). -/
def isWs (c : Char) : Bool :=
  c = ' ' || c = '\t' || c = '\n' || c = '\r' || c = '\x0b' || c = '\x0c'

/-- The three string delimiters recognised by the source
(`'`, `"` and the template backquote). -/
def isQuoteChar (c : Char) : Bool :=
  c = '\'' || c = '"' || c = btick

/-- JS `\w`, i.e. `[A-Za-z0-9_]`. -/
def isWordChar (c : Char) : Bool :=
  c.isAlphanum || c = '_'

/-- Leading-whitespace strip (left half of JS `String.trim`). -/
def trimL (s : Str) : Str := s.dropWhile (fun c => isWs c)

/-- Trailing-whitespace strip (right half of JS `String.trim`). -/
def trimR (s : Str) : Str := (s.reverse.dropWhile (fun c => isWs c)).reverse

/-- JS `String.prototype.trim`. -/
def trim (s : Str) : Str := trimL (trimR s)

/-- JS `replace(/\s+/g, '')`: removing every whitespace character. -/
def stripWs (s : Str) : Str := s.filter (fun c => !isWs c)

/-- First index at which `needle` occurs in the scanned text
(JS `String.prototype.indexOf`). -/
def indexOfSub (needle : Str) : Str → Option Nat
  | [] => if needle.isPrefixOf ([] : Str) then some 0 else none
  | s@(_ :: rest) =>
    if needle.isPrefixOf s then some 0
    else (indexOfSub needle rest).map (· + 1)

/-- JS `String.prototype.includes`. -/
def hasSub (hay needle : Str) : Bool := (indexOfSub needle hay).isSome

/-- Leftmost-match search: the first position (scanning left to right,
including the end-of-string position) at which the position matcher `f`
succeeds, together with `f`'s answer there.  This is how a JS non-global
regex locates its match. -/
def findMatchIdx {α : Type} (f : Str → Option α) : Str → Option (Nat × α)
  | [] => (f ([] : Str)).map (fun a => (0, a))
  | s@(_ :: rest) =>
    match f s with
    | some a => some (0, a)
    | none => (findMatchIdx f rest).map (fun p => (p.1 + 1, p.2))

/-- `before ++ inserted ++ after` splicing used by every editor. -/
def splice (s : Str) (i len : Nat) (rep : Str) : Str :=
  s.take i ++ rep ++ s.drop (i + len)

/-- JS `GetSubstitution` for a string replacement argument: `$$`, `$&`,
a backquoted before-match marker, `$'` and single-digit `$n` (the
patterns in this repository capture at most one group, so two-digit
group references cannot refer to an existing group). -/
def substRep (before matched after : Str) (groups : List Str) : Str → Str
  | '$' :: c :: rest =>
    if c = '$' then '$' :: substRep before matched after groups rest
    else if c = '&' then matched ++ substRep before matched after groups rest
    else if c = btick then before ++ substRep before matched after groups rest
    else if c = '\'' then after ++ substRep before matched after groups rest
    else if c.isDigit then
      let n := c.toNat - 48
      if 1 ≤ n ∧ n ≤ groups.length then
        groups.getD (n - 1) [] ++ substRep before matched after groups rest
      else '$' :: c :: substRep before matched after groups rest
    else '$' :: c :: substRep before matched after groups rest
  | c :: rest => c :: substRep before matched after groups rest
  | [] => []

/-- Replace the span `[i, i+len)` of `content` by the replacement string
`rep`, processing `$`-escapes as JS does for string replacement
arguments (callback replacements are spliced verbatim instead). -/
def regexReplace (content : Str) (i len : Nat) (groups : List Str) (rep : Str) : Str :=
  splice content i len
    (substRep (content.take i) ((content.drop i).take len) (content.drop (i + len)) groups rep)

/-- JS `String.prototype.replace` with a *string* pattern: first
occurrence only, `$`-escapes processed with no capture groups. -/
def strReplaceFirst (hay needle rep : Str) : Str :=
  match indexOfSub needle hay with
  | none => hay
  | some i => regexReplace hay i needle.length [] rep

/-- Match a literal at the current position; remainder on success. -/
def eatLit (lit : Str) (s : Str) : Option Str :=
  if lit.isPrefixOf s then some (s.drop lit.length) else none

/-- Regex `\s*` at the current position (greedy, never fails; every
pattern in the source follows it with a non-whitespace literal, so no
backtracking can occur). -/
def eatWsStar (s : Str) : Str := s.dropWhile (fun c => isWs c)

/-- Regex `\s+` at the current position. -/
def eatWsPlus (s : Str) : Option Str :=
  match s with
  | c :: rest => if isWs c then some (rest.dropWhile (fun c => isWs c)) else none
  | [] => none

/-- Regex `p+` for a character class `p` (greedy; in every use the
following pattern element is outside the class, so no backtracking). -/
def eatRun1 (p : Char → Bool) (s : Str) : Option Str :=
  match s with
  | c :: rest => if p c then some (rest.dropWhile p) else none
  | [] => none

/-- Regex single-character class such as `['"]`. -/
def eatCharIn (cs : Str) (s : Str) : Option Str :=
  match s with
  | c :: rest => if c ∈ cs then some rest else none
  | [] => none

/-- Regex `c?` (greedy optional literal). -/
def eatOptChar (c : Char) (s : Str) : Str :=
  match s with
  | c' :: rest => if c' = c then rest else s
  | [] => s

/-- Index of the last newline inside a (whitespace) run. -/
def lastNlIdx (w : Str) : Option Nat :=
  match w.reverse.findIdx? (fun c => c = '\n') with
  | some j => some (w.length - 1 - j)
  | none => none

/-- Regex `\s*\n`: the greedy `\s*` backtracks until the next character
is a newline, which deterministically consumes the whitespace run up to
and including its *last* newline (failing when the run has none). -/
def eatWsNl (s : Str) : Option Str :=
  let w := s.takeWhile (fun c => isWs c)
  match lastNlIdx w with
  | some j => some (s.drop (j + 1))
  | none => none

/-!  `removeComments` from `vite-config.ts`, lines 8-65.  The nested
index-based `while` loops are rendered as one recursion over the
remaining characters with an explicit mode (top level / inside a string
of a given delimiter / line comment / block comment).  Quirks of the
source are preserved: an escape as the final character of the input
appends the characters of JS's `"undefined"` coercion and stops; the
block-comment loop runs only while `i < length - 1`, so the final
character of an unterminated block comment is re-processed as top-level
text (a single top-level character is always emitted verbatim). -/

inductive RCMode
  | top
  | insideStr (delim : Char)
  | lineC
  | blockC

/-- The mode automaton of `removeComments` (structural recursion on the
remaining characters).  The `//` and `/*` look-aheads are disjoint from
the quote check of the source (`/` is not a string delimiter), so they
can be matched first. -/
def rcGo : RCMode → Str → Str
  | .top, [] => []
  | .top, '/' :: '/' :: r2 => rcGo .lineC r2
  | .top, '/' :: '*' :: r2 => rcGo .blockC r2
  | .top, c :: rest =>
    if isQuoteChar c then c :: rcGo (.insideStr c) rest
    else c :: rcGo .top rest
  | .insideStr _, [] => []
  | .insideStr _, '\\' :: [] => '\\' :: ("undefined".data)
  | .insideStr d, '\\' :: c2 :: rest2 => '\\' :: c2 :: rcGo (.insideStr d) rest2
  | .insideStr d, c :: rest =>
    if c = d then c :: rcGo .top rest else c :: rcGo (.insideStr d) rest
  | .lineC, [] => []
  | .lineC, c :: rest =>
    if c = '\n' then '\n' :: rcGo .top rest else rcGo .lineC rest
  | .blockC, [] => []
  | .blockC, [c] => [c]
  | .blockC, '*' :: '/' :: rest => rcGo .top rest
  | .blockC, _ :: c2 :: rest => rcGo .blockC (c2 :: rest)

/-- `removeComments` of `vite-config.ts`. -/
def removeComments (code : Str) : Str := rcGo .top code

/-!  The balanced-parenthesis scanner of `updateViteConfig`
(`vite-config.ts`, lines 151-181): strings are tracked via
`inString`/`stringChar` with a one-character escape look-back; comments
are *not* tracked.  Depth starts at 1, code-position parens adjust it,
and the scan answers the index where depth returns to 0. -/
def scanCloseGo : Str → Char → Nat → Option Char → Nat → Option Nat
  | [], _, _, _, _ => none
  | c :: rest, prev, depth, inStr, idx =>
    let inStr' :=
      if isQuoteChar c && prev != '\\' then
        match inStr with
        | none => some c
        | some d => if c = d then none else some d
      else inStr
    let depth' :=
      if inStr'.isNone then
        if c = '(' then depth + 1 else if c = ')' then depth - 1 else depth
      else depth
    if depth' = 0 then some idx
    else scanCloseGo rest c depth' inStr' (idx + 1)

/-- The regex `/analog\s*\(/` tried at one position: returns the match
length. -/
def matchAnalogAt (s : Str) : Option Nat :=
  match eatLit ("analog".data) s with
  | none => none
  | some s1 =>
    let w := s1.takeWhile (fun c => isWs c)
    match s1.drop w.length with
    | '(' :: _ => some (6 + w.length + 1)
    | _ => none

/-- `analogCallRegex.exec(content)` followed by
`match.index + match[0].length`: the position just after the opening
parenthesis of the first `analog(` call. -/
def analogStartIdx (content : Str) : Option Nat :=
  (findMatchIdx matchAnalogAt content).map (fun p => p.1 + p.2)

/-- The scanner loop of `updateViteConfig` started at `startPos`
(`prevChar` for the first iteration is the character before it, `''`
when at position 0). -/
def findParenClose (content : Str) (startPos : Nat) : Option Nat :=
  let prev0 := if startPos = 0 then ' ' else content.getD (startPos - 1) ' '
  scanCloseGo (content.drop startPos) prev0 1 none startPos

/-- Marker search plus scan: the `endPos` computed by `updateViteConfig`,
`none` when the marker is absent or the parentheses never balance. -/
def analogClose (content : Str) : Option Nat :=
  match analogStartIdx content with
  | none => none
  | some sp => findParenClose content sp

/-- Regex `/key\s*:/` tried at one position (used by the three
`.test(...)` presence checks). -/
def matchKeyColonAt (key : Str) (s : Str) : Option Unit :=
  match eatLit key s with
  | none => none
  | some s1 =>
    match s1.dropWhile (fun c => isWs c) with
    | ':' :: _ => some ()
    | _ => none

/-- `/key\s*:/.test(s)`. -/
def testKeyColon (key : Str) (s : Str) : Bool :=
  (findMatchIdx (matchKeyColonAt key) s).isSome

/-- Regex `/key:\s*\[([^\]]*)\]/` tried at one position: match length and
the captured group (the array interior). -/
def matchArrAt (key : Str) (s : Str) : Option (Nat × Str) :=
  match eatLit (key ++ [':']) s with
  | none => none
  | some s1 =>
    let w := s1.takeWhile (fun c => isWs c)
    match s1.drop w.length with
    | '[' :: s3 =>
      let g := s3.takeWhile (fun c => c != ']')
      if s3.drop g.length = [] then none
      else some (key.length + 1 + w.length + 1 + g.length + 1, g)
    | _ => none

/-- The callback-based array append of `updateViteConfig` (lines 232-240
and 253-261): the existing interior is trimmed and the new literal is
appended, with `', '` only when the interior was non-empty.  Callback
results are spliced verbatim (no `$` processing). -/
def replaceArrAppend (key fmt : Str) (s : Str) : Str :=
  match findMatchIdx (matchArrAt key) s with
  | none => s
  | some (i, (len, g)) =>
    let t := trim g
    let existing := if t = [] then [] else t ++ (", ".data)
    splice s i len (key ++ (": [".data) ++ existing ++ fmt ++ ("]".data))

/-- Leftmost match of `/\}\s*$/`: the closing brace followed only by
whitespace up to end-of-input (only the last such brace can qualify). -/
def findTrailBrace (s : Str) : Option Nat :=
  let r := s.reverse
  let k := (r.takeWhile (fun c => isWs c)).length
  if r.getD k ' ' = cbrace then some (s.length - k - 1) else none

/-- `newAnalogContent.replace(/\}\s*$/, rep)` with a string replacement
argument. -/
def replaceTrailBrace (s : Str) (rep : Str) : Str :=
  match findTrailBrace s with
  | none => s
  | some i => regexReplace s i (s.length - i) [] rep

/-- The `options` parameter of `updateViteConfig`: absent fields default
to `undefined`, and the source treats anything other than the literal
`false` as enabled. -/
structure VCOptions where
  addPages : Option Bool := none
  addApi : Option Bool := none

/-- `path.join` on the plain relative segments used here (no `..`, no
absolute paths), rendered with `/`; the source additionally maps `\` to
`/`, modelled by `slashify`. -/
def pathJoin (a b : Str) : Str := a ++ ['/'] ++ b

/-- `replace(/\\/g, '/')`. -/
def slashify (s : Str) : Str := s.map (fun c => if c = '\\' then '/' else c)

/-- `'<dir>'`: the quoted form of the pages directory literal. -/
def pagesDirFmt (libSrcRoot : Str) : Str :=
  '\'' :: slashify (pathJoin libSrcRoot ("pages".data)) ++ ['\'']

/-- `'<dir>'`: the quoted form of the api directory literal. -/
def apiDirFmt (libSrcRoot : Str) : Str :=
  '\'' :: slashify (pathJoin (pathJoin libSrcRoot ("backend".data)) ("api".data)) ++ ['\'']

/-- Lines 198-210 of `vite-config.ts`: the fresh options object built for
an empty `analog()` call, keys pushed in the order liveReload,
additionalPagesDirs, additionalAPIDirs. -/
def freshAnalogOptions (libSrcRoot : Str) (o : VCOptions) : Str :=
  let shouldAddPages := o.addPages ≠ some false
  let shouldAddApi := o.addApi ≠ some false
  let newOptions :=
    [("liveReload: true".data)]
      ++ (if shouldAddPages then
            [("additionalPagesDirs: [".data) ++ pagesDirFmt libSrcRoot ++ ("]".data)]
          else [])
      ++ (if shouldAddApi then
            [("additionalAPIDirs: [".data) ++ apiDirFmt libSrcRoot ++ ("]".data)]
          else [])
  if newOptions ≠ [] then
    (obrace :: "\n        ".data) ++ List.intercalate (",\n        ".data) newOptions
      ++ ("\n      ".data) ++ [cbrace]
  else [obrace, cbrace]

/-- The emptiness test of lines 191-194: comments removed, all
whitespace removed, compared against `''` and the two-brace literal. -/
def analogArgIsEmpty (analogContent : Str) : Bool :=
  let stripped := stripWs (removeComments analogContent)
  stripped = [] || stripped = [obrace, cbrace]

/-- Lines 188-270 of `vite-config.ts`: the rewrite of the (trimmed)
`analog(...)` argument text.  The non-empty branch mirrors the source's
variable reuse exactly, including the `analogContent.replace` in the
pages branch (line 234) that rebuilds from the pre-liveReload text,
while the api branch (line 255) rebuilds from `newAnalogContent`. -/
def rewriteAnalogContent (analogContent libSrcRoot : Str) (o : VCOptions) : Str :=
  let shouldAddPages := o.addPages ≠ some false
  let shouldAddApi := o.addApi ≠ some false
  if analogArgIsEmpty analogContent then freshAnalogOptions libSrcRoot o
  else
    let innerContent0 :=
      if analogContent.head? = some obrace ∧ analogContent.getLast? = some cbrace then
        (analogContent.drop 1).dropLast
      else analogContent
    let hasPagesDir := testKeyColon ("additionalPagesDirs".data) innerContent0
    let hasApiDir := testKeyColon ("additionalAPIDirs".data) innerContent0
    let hasLiveReload := testKeyColon ("liveReload".data) innerContent0
    let nac1 :=
      if hasLiveReload then analogContent
      else
        let t := trim innerContent0
        let needsComma := t ≠ [] ∧ t.getLast? ≠ some ','
        (obrace :: "\n".data) ++ innerContent0 ++ (if needsComma then [','] else [])
          ++ ("\n        liveReload: true\n      ".data) ++ [cbrace]
    let inner1 := if hasLiveReload then innerContent0 else (nac1.drop 1).dropLast
    let nac2 :=
      if shouldAddPages ∧ hasPagesDir then
        replaceArrAppend ("additionalPagesDirs".data) (pagesDirFmt libSrcRoot) analogContent
      else if shouldAddPages ∧ ¬ hasPagesDir then
        let t := trim inner1
        let needsComma := t ≠ [] ∧ t.getLast? ≠ some ','
        (obrace :: "\n".data) ++ inner1 ++ (if needsComma then [','] else [])
          ++ ("\n        additionalPagesDirs: [".data) ++ pagesDirFmt libSrcRoot
          ++ ("]\n      ".data) ++ [cbrace]
      else nac1
    let inner2 :=
      if nac2.head? = some obrace ∧ nac2.getLast? = some cbrace then
        (nac2.drop 1).dropLast
      else nac2
    let nac3 :=
      if shouldAddApi ∧ hasApiDir then
        replaceArrAppend ("additionalAPIDirs".data) (apiDirFmt libSrcRoot) nac2
      else if shouldAddApi ∧ ¬ hasApiDir then
        let t := trim inner2
        let needsComma := t ≠ [] ∧ t.getLast? ≠ some ','
        if nac2.head? = some obrace then
          replaceTrailBrace nac2
            ((if needsComma then [','] else []) ++ ("\n        additionalAPIDirs: [".data)
              ++ apiDirFmt libSrcRoot ++ ("]\n      ".data) ++ [cbrace])
        else
          (obrace :: "\n".data) ++ inner2 ++ (if needsComma then [','] else [])
            ++ ("\n        additionalAPIDirs: [".data) ++ apiDirFmt libSrcRoot
            ++ ("]\n      ".data) ++ [cbrace]
      else nac2
    nac3

/-- `updateViteConfig` of `vite-config.ts` (lines 122-278): locate the
`analog(` call, scan to its closing parenthesis, rewrite the trimmed
argument text and splice it back between `startPos` and `endPos`.  When
the marker is absent or the parens never balance the input text is
returned unchanged. -/
def updateViteConfig (content libSrcRoot : Str) (o : VCOptions) : Str :=
  match analogStartIdx content with
  | none => content
  | some sp =>
    match findParenClose content sp with
    | none => content
    | some ep =>
      content.take sp
        ++ rewriteAnalogContent (trim ((content.take ep).drop sp)) libSrcRoot o
        ++ content.drop ep

/-!  The import-insertion step of `updateAppConfig` (auth generator,
lines 126-144): the regex
`/(import\s+{[^}]+}\s+from\s+['"][^'"]+['"];?\s*\n)+/` is matched at its
leftmost position, greedily repeated, and the auth import line is
spliced in right after the matched run.  Every greedy element of the
group is followed by a pattern element outside its class, so the single
backtracking point is the final `\s*\n` (resolved by `eatWsNl`). -/

/-- One repetition of the import group, as a deterministic matcher
returning the remaining suffix. -/
def matchOneImport (s : Str) : Option Str :=
  match eatLit ("import".data) s with
  | none => none
  | some s1 =>
  match eatWsPlus s1 with
  | none => none
  | some s2 =>
  match eatLit [obrace] s2 with
  | none => none
  | some s3 =>
  match eatRun1 (fun c => c != cbrace) s3 with
  | none => none
  | some s4 =>
  match eatLit [cbrace] s4 with
  | none => none
  | some s5 =>
  match eatWsPlus s5 with
  | none => none
  | some s6 =>
  match eatLit ("from".data) s6 with
  | none => none
  | some s7 =>
  match eatWsPlus s7 with
  | none => none
  | some s8 =>
  match eatCharIn ("'\"".data) s8 with
  | none => none
  | some s9 =>
  match eatRun1 (fun c => c != '\'' && c != '"') s9 with
  | none => none
  | some s10 =>
  match eatCharIn ("'\"".data) s10 with
  | none => none
  | some s11 => eatWsNl (eatOptChar ';' s11)

/-- Greedy repetition of the import group (the regex `+`), with fuel:
every successful repetition consumes at least the six characters of
`import`, so the `s.length + 1` units supplied by `importRunEnd` are
never exhausted and the recursion mirrors the JS engine exactly. -/
def importRunEndF : Nat → Str → Str
  | 0, s => s
  | fuel + 1, s =>
    match matchOneImport s with
    | none => s
    | some r => importRunEndF fuel r

/-- The suffix left after greedily repeating the import group. -/
def importRunEnd (s : Str) : Str := importRunEndF (s.length + 1) s

/-- The leftmost match of the import-block regex: the first position at
which the group matches, paired with the total length its greedy
repetitions consume there. -/
def findImportRun (content : Str) : Option (Nat × Nat) :=
  findMatchIdx
    (fun s => if (matchOneImport s).isSome
              then some (s.length - (importRunEnd s).length) else none)
    content

/-- `'@analog-tools/auth/angular'`, the presence marker checked before
any edit of `app.config.ts`. -/
def authAngularMarker : Str := "@analog-tools/auth/angular".data

/-- The auth import statement inserted by `updateAppConfig`. -/
def authImportLine : Str :=
  "import \x7b authInterceptor, provideAuthClient \x7d from '@analog-tools/auth/angular';\n".data

/-- Lines 126-144 of the auth generator: skip when the auth module is
already imported, else insert the auth import line immediately after the
first (greedily extended) run of import statements; when the regex finds
no import block, the content is returned as is. -/
def addAuthImport (content : Str) : Str :=
  if hasSub content authAngularMarker then content
  else
    match findImportRun content with
    | some (i, n) => content.take (i + n) ++ authImportLine ++ content.drop (i + n)
    | none => content

/-- A well-formed single-line named import: `import {<b>} from '<m>';`
followed by a newline — the line shape recognised by the import-block
regex. -/
def renderImportLine (b m : Str) : Str :=
  ("import \x7b".data) ++ b ++ ("\x7d from '".data) ++ m ++ ("';\n".data)

/-- A contiguous block of well-formed import lines. -/
def renderImportLines : List (Str × Str) → Str
  | [] => []
  | (b, m) :: rest => renderImportLine b m ++ renderImportLines rest

/-!  `getWorkspaceScope` from `workspace.ts` (lines 35-110).  The Nx
`Tree` and the JSON reads are modelled by exactly the data the function
consumes: whether `readNxJson` throws, returns null, or yields an
`npmScope` field of string or other type (`getFieldValue` yields the
value only when present with type string); for each candidate
`<dir>/<child>/package.json` whether the file exists and what its `name`
field parses to (`readJson` may throw, caught per candidate); and the
root `package.json`'s existence and `name`. -/

/-- A JSON field value as far as the scope logic inspects it. -/
inductive JVal
  | jstr (s : Str)
  | jother

/-- One `<dir>/<child>` candidate of the packages/libs scan. -/
structure PkgCandidate where
  hasPkgJson : Bool
  nameField : Except Unit (Option JVal)

/-- The tree data consumed by `getWorkspaceScope`. -/
structure WsTree where
  nxNpmScope : Except Unit (Option (Option JVal))
  packagesChildren : Option (List PkgCandidate)
  libsChildren : Option (List PkgCandidate)
  rootPkgExists : Bool
  rootName : Except Unit (Option JVal)

/-- `name.startsWith('@') && name.includes('/')` guarding
`name.substring(0, name.indexOf('/'))`. -/
def scopeFromName (name : Str) : Option Str :=
  if name.head? = some '@' ∧ '/' ∈ name then some (name.take (name.indexOf '/'))
  else none

/-- The inner loop over one directory's children: first candidate whose
`package.json` exists, parses, and carries a scoped string name wins;
read failures are caught and skipped. -/
def scanCandidates : List PkgCandidate → Option Str
  | [] => none
  | c :: rest =>
    match (if c.hasPkgJson then
        match c.nameField with
        | .ok (some (.jstr n)) => scopeFromName n
        | _ => none
      else none) with
    | some s => some s
    | none => scanCandidates rest

/-- `getWorkspaceScope`: `nx.json`'s `npmScope` (prefixing `@` when
absent), else the first scoped package name under `packages`/`libs`,
else the root `package.json` name's scope, else null. -/
def getWorkspaceScope (t : WsTree) : Option Str :=
  match t.nxNpmScope with
  | .ok (some (some (.jstr sc))) =>
    some (if sc.head? = some '@' then sc else '@' :: sc)
  | _ =>
    match (match t.packagesChildren with
      | some cs =>
        (match scanCandidates cs with
         | some s => some s
         | none =>
           match t.libsChildren with
           | some cs2 => scanCandidates cs2
           | none => none)
      | none =>
        match t.libsChildren with
        | some cs2 => scanCandidates cs2
        | none => none) with
    | some s => some s
    | none =>
      if t.rootPkgExists then
        match t.rootName with
        | .ok (some (.jstr n)) => scopeFromName n
        | _ => none
      else none

/-!  `updateViteConfig` of the auth generator file (lines 223-290):
ensure `'@analog-tools/auth'` in `ssr.noExternal`.  -/

/-- Regex `/ssr:\s*{\s*noExternal:\s*\[([\s\S]*?)\]/` at one position:
match length and the captured array interior (the lazy group stops at
the first `]`). -/
def matchNoExternalAt (s : Str) : Option (Nat × Str) :=
  match eatLit ("ssr:".data) s with
  | none => none
  | some s1 =>
    let w1 := s1.takeWhile (fun c => isWs c)
    match s1.drop w1.length with
    | c2 :: s2 =>
      if c2 = obrace then
        let w2 := s2.takeWhile (fun c => isWs c)
        match eatLit ("noExternal:".data) (s2.drop w2.length) with
        | none => none
        | some s3 =>
          let w3 := s3.takeWhile (fun c => isWs c)
          match s3.drop w3.length with
          | '[' :: s4 =>
            let g := s4.takeWhile (fun c => c != ']')
            if s4.drop g.length = [] then none
            else some (4 + w1.length + 1 + w2.length + 11 + w3.length + 1 + g.length + 1, g)
          | _ => none
      else none
    | _ => none

/-- Regex `/ssr:\s*{/` at one position. -/
def matchSsrOpenAt (s : Str) : Option Nat :=
  match eatLit ("ssr:".data) s with
  | none => none
  | some s1 =>
    let w := s1.takeWhile (fun c => isWs c)
    match s1.drop w.length with
    | c :: _ => if c = obrace then some (4 + w.length + 1) else none
    | [] => none

/-- Regex `/build:\s*{/` at one position. -/
def matchBuildOpenAt (s : Str) : Option Nat :=
  match eatLit ("build:".data) s with
  | none => none
  | some s1 =>
    let w := s1.takeWhile (fun c => isWs c)
    match s1.drop w.length with
    | c :: _ => if c = obrace then some (6 + w.length + 1) else none
    | [] => none

/-- The content transform of the generator's `updateViteConfig`: no-op
when `'@analog-tools/auth'` is already present in the matched
`noExternal` interior; otherwise split/trim/filter the items, append the
literal, and rewrite the matched span; with no match, prepend a
`noExternal` line after `ssr: {`, or insert a whole `ssr` section before
`build: {`, or leave the text unchanged. -/
def updateViteConfigNoExternal (content : Str) : Str :=
  match findMatchIdx matchNoExternalAt content with
  | some (i, (len, g)) =>
    if hasSub g ("'@analog-tools/auth'".data) || hasSub g ("\"@analog-tools/auth\"".data) then
      content
    else
      let items := ((g.splitOn ',').map trim).filter (fun x => x ≠ [])
      let items2 := items ++ [("'@analog-tools/auth'".data)]
      let itemsStr := List.intercalate (", ".data) items2
      regexReplace content i len [g]
        (("ssr: \x7b\n      noExternal: [".data) ++ itemsStr ++ ("]".data))
  | none =>
    if hasSub content ("ssr:".data) then
      match findMatchIdx matchSsrOpenAt content with
      | some (i, len) =>
        regexReplace content i len []
          ("ssr: \x7b\n      noExternal: ['@analog-tools/auth'],".data)
      | none => content
    else
      match findMatchIdx matchBuildOpenAt content with
      | some (i, _) =>
        content.take i
          ++ ("\n    ssr: \x7b\n      noExternal: ['@analog-tools/auth'],\n    \x7d,\n\n    ".data)
          ++ content.drop i
      | none => content

/-!  The providers/interceptor half of `updateAppConfig` (auth
generator, lines 146-214). -/

/-- Regex `/providers:\s*\[([\s\S]*?)\]/` at one position. -/
def matchProvidersAt (s : Str) : Option (Nat × Str) :=
  match eatLit ("providers:".data) s with
  | none => none
  | some s1 =>
    let w := s1.takeWhile (fun c => isWs c)
    match s1.drop w.length with
    | '[' :: s2 =>
      let g := s2.takeWhile (fun c => c != ']')
      if s2.drop g.length = [] then none
      else some (10 + w.length + 1 + g.length + 1, g)
    | _ => none

/-- Regex `/providers:\s*\[/` at one position. -/
def matchProvidersOpenAt (s : Str) : Option Nat :=
  match eatLit ("providers:".data) s with
  | none => none
  | some s1 =>
    let w := s1.takeWhile (fun c => isWs c)
    match s1.drop w.length with
    | '[' :: _ => some (10 + w.length + 1)
    | _ => none

/-- Indices of the newlines of a whitespace run (ascending). -/
def nlPositions (w : Str) : List Nat :=
  (List.range w.length).filter (fun j => w.getD j ' ' = '\n')

/-- The tail of `lastProviderRegex` after its `,\s*\n`: `\s*`, then the
alternation `(\w+\([^)]*\)|provide\w+\([^)]*\))` — the first alternative
takes the maximal word run, so it succeeds whenever the second would —
then `\s*,?\s*$`.  Returns the captured group. -/
def lpTail (t : Str) : Option Str :=
  let t1 := t.dropWhile (fun c => isWs c)
  let w := t1.takeWhile (fun c => isWordChar c)
  if w = [] then none
  else
    match t1.drop w.length with
    | '(' :: t2 =>
      let inner := t2.takeWhile (fun c => c != ')')
      match t2.drop inner.length with
      | ')' :: t3 =>
        let t4 := t3.dropWhile (fun c => isWs c)
        let ok := match t4 with
          | [] => true
          | ',' :: t5 => (t5.dropWhile (fun c => isWs c)) = []
          | _ => false
        if ok then some (w ++ ('(' :: inner) ++ (')' :: [])) else none
      | _ => none
    | _ => none

/-- Backtracking of `,\s*\n`: the newline choices inside the whitespace
run after the comma are tried from the greediest (last) backwards. -/
def lpTryNls (afterComma : Str) : List Nat → Option Str
  | [] => none
  | j :: rest =>
    match lpTail (afterComma.drop (j + 1)) with
    | some g => some g
    | none => lpTryNls afterComma rest

/-- Leftmost comma at which `lastProviderRegex` matches; the `$` anchor
extends every match to the end of the providers interior. -/
def lpFind : Str → Nat → Option (Nat × Str)
  | [], _ => none
  | ',' :: rest, idx =>
    (match lpTryNls rest ((nlPositions (rest.takeWhile (fun c => isWs c))).reverse) with
     | some g => some (idx, g)
     | none => lpFind rest (idx + 1))
  | _ :: rest, idx => lpFind rest (idx + 1)

/-- `providersContent.replace(lastProviderRegex,
',\n    $1,\n    provideAuthClient(),')` (string replacement, so the
`$1` group reference is substituted). -/
def lastProviderReplace (pc : Str) : Str :=
  match lpFind pc 0 with
  | none => pc
  | some (p, g) =>
    pc.take p
      ++ substRep (pc.take p) (pc.drop p) [] [g]
          (",\n    $1,\n    provideAuthClient(),".data)

/-- Regex `/withInterceptors\(\[([^\]]*)\]\)/` at one position. -/
def matchWithInterceptorsAt (s : Str) : Option (Nat × Str) :=
  match eatLit ("withInterceptors([".data) s with
  | none => none
  | some s1 =>
    let g := s1.takeWhile (fun c => c != ']')
    match eatLit ("])".data) (s1.drop g.length) with
    | none => none
    | some _ => some (18 + g.length + 2, g)

/-- Regex `/provideHttpClient\(([\s\S]*?)\)/` at one position. -/
def matchProvideHttpAt (s : Str) : Option (Nat × Str) :=
  match eatLit ("provideHttpClient(".data) s with
  | none => none
  | some s1 =>
    let g := s1.takeWhile (fun c => c != ')')
    if s1.drop g.length = [] then none
    else some (18 + g.length + 1, g)

/-- Regex `/from\s+['"]@angular\/common\/http['"]/` at one position. -/
def matchFromHttpAt (s : Str) : Option Nat :=
  match eatLit ("from".data) s with
  | none => none
  | some s1 =>
    let w := s1.takeWhile (fun c => isWs c)
    if w = [] then none
    else
      match s1.drop w.length with
      | q :: s2 =>
        if q = '\'' || q = '"' then
          match eatLit ("@angular/common/http".data) s2 with
          | none => none
          | some s3 =>
            match s3 with
            | q2 :: _ =>
              if q2 = '\'' || q2 = '"' then some (4 + w.length + 1 + 20 + 1) else none
            | [] => none
        else none
      | [] => none

/-- Regex `/import\s+{([^}]+)}\s+from\s+['"]@angular\/common\/http['"]/`
at one position: match length and the brace interior. -/
def matchImportHttpAt (s : Str) : Option (Nat × Str) :=
  match eatLit ("import".data) s with
  | none => none
  | some s1 =>
    let w1 := s1.takeWhile (fun c => isWs c)
    if w1 = [] then none
    else
      match s1.drop w1.length with
      | c :: s2 =>
        if c = obrace then
          let g := s2.takeWhile (fun c => c != cbrace)
          if g = [] then none
          else
            match s2.drop g.length with
            | c2 :: s3 =>
              if c2 = cbrace then
                let w2 := s3.takeWhile (fun c => isWs c)
                if w2 = [] then none
                else
                  match eatLit ("from".data) (s3.drop w2.length) with
                  | none => none
                  | some s4 =>
                    let w3 := s4.takeWhile (fun c => isWs c)
                    if w3 = [] then none
                    else
                      match s4.drop w3.length with
                      | q :: s5 =>
                        if q = '\'' || q = '"' then
                          match eatLit ("@angular/common/http".data) s5 with
                          | none => none
                          | some s6 =>
                            match s6 with
                            | q2 :: _ =>
                              if q2 = '\'' || q2 = '"' then
                                some (6 + w1.length + 1 + g.length + 1 + w2.length + 4
                                  + w3.length + 1 + 20 + 1, g)
                              else none
                            | [] => none
                        else none
                      | [] => none
              else none
            | [] => none
        else none
      | [] => none

/-- Lines 146-214 of the auth generator: inside the `providers` match,
ensure `provideAuthClient()` (append after the last provider, or insert
right after `providers: [` when the last-provider pattern finds
nothing), then ensure `authInterceptor` inside `withInterceptors([...])`
with the `provideHttpClient(...withFetch()...)` fallback (whose inner fix-up of
the import list is unreachable in practice because the inserted text
already contains `withInterceptors`, and is mirrored for fidelity). -/
def providersStep (c0 : Str) : Str :=
  match findMatchIdx matchProvidersAt c0 with
  | none => c0
  | some (_, (_, pc)) =>
    let c1 :=
      if hasSub pc ("provideAuthClient".data) then c0
      else
        let up := lastProviderReplace pc
        if up = pc then
          match findMatchIdx matchProvidersOpenAt c0 with
          | some (i, len) =>
            regexReplace c0 i len [] ("providers: [\n    provideAuthClient(),".data)
          | none => c0
        else strReplaceFirst c0 pc up
    match findMatchIdx matchWithInterceptorsAt c1 with
    | some (i, (len, ic)) =>
      if hasSub ic ("authInterceptor".data) then c1
      else
        let up := if trim ic ≠ [] then trim ic ++ (", authInterceptor".data)
                  else ("authInterceptor".data)
        regexReplace c1 i len [ic] (("withInterceptors([".data) ++ up ++ ("])".data))
    | none =>
      match findMatchIdx matchProvideHttpAt c1 with
      | some (i, (len, hc)) =>
        if hasSub hc ("withFetch()".data) then
          let c2 := regexReplace c1 i len [hc]
            ("provideHttpClient(\n      withFetch(),\n      withInterceptors([authInterceptor])\n    )".data)
          if hasSub c2 ("withInterceptors".data) then c2
          else
            let c3 := match findMatchIdx matchFromHttpAt c2 with
              | some (j, jlen) =>
                regexReplace c2 j jlen [] ("from '@angular/common/http'".data)
              | none => c2
            match findMatchIdx matchImportHttpAt c3 with
            | some (j, (jlen, imps)) =>
              if hasSub imps ("withInterceptors".data) then c3
              else
                splice c3 j jlen
                  (strReplaceFirst ((c3.drop j).take jlen) ([cbrace])
                    ((", withInterceptors".data) ++ [cbrace]))
            | none => c3
        else c1
      | none => c1

/-!  `initAuthGenerator` (auth generator, lines 306-412).  The Nx `Tree`
is modelled by a path-to-content file map plus the structured views the
generator consumes: the result of `readProjectConfiguration` (which may
throw), the parsed root `package.json` (absent / `JSON.parse` throw /
parsed name and truthy dependency entries), and the two generator
`package.json` version probes of `getGeneratorVersion` (absent / read
throw / optional version field). -/

/-- `readProjectConfiguration`'s result. -/
structure ProjCfg where
  root : Str
  projectType : Option Str

/-- The parsed root `package.json` as far as `ensureAuthPackages` reads
it: `dependencies`/`devDependencies` list the package names whose
version entries are truthy. -/
structure PkgJson where
  name : Option Str
  dependencies : List Str
  devDependencies : List Str

/-- The generator's tree model. -/
structure GenTree where
  files : List (Str × Str)
  projCfg : Except Unit ProjCfg
  pkgJson : Option (Except Unit PkgJson)
  genVerNodeModules : Option (Except Unit (Option Str))
  genVerMonorepo : Option (Except Unit (Option Str))

/-- The exceptions `initAuthGenerator` can propagate. -/
inductive InitError
  | projReadError
  | notApplication
  | pkgParseError
deriving DecidableEq

/-- `tree.exists`. -/
def fExists (fs : List (Str × Str)) (p : Str) : Bool := fs.any (fun e => e.1 = p)

/-- `tree.read`. -/
def fRead (fs : List (Str × Str)) (p : Str) : Option Str :=
  (fs.find? (fun e => e.1 = p)).map (fun e => e.2)

/-- `tree.write`. -/
def fWrite (fs : List (Str × Str)) (p c : Str) : List (Str × Str) :=
  if fExists fs p then fs.map (fun e => if e.1 = p then (p, c) else e)
  else fs ++ [(p, c)]

/-- The monorepo fallback of `getGeneratorVersion` (a read failure is
caught and yields `latest`; a falsy version string falls through). -/
def genVerFromMonorepo (t : GenTree) : Str :=
  match t.genVerMonorepo with
  | some (.error _) => "latest".data
  | some (.ok (some v)) => if v ≠ [] then v else "latest".data
  | _ => "latest".data

/-- `getGeneratorVersion` (lines 15-43): node_modules probe first, then
the monorepo probe, then `latest`; all read errors are caught. -/
def getGeneratorVersion (t : GenTree) : Str :=
  match t.genVerNodeModules with
  | some (.error _) => "latest".data
  | some (.ok (some v)) => if v ≠ [] then v else genVerFromMonorepo t
  | _ => genVerFromMonorepo t

/-- The four packages required by the auth generator. -/
def requiredAuthPackages : List Str :=
  [("@analog-tools/auth".data), ("@analog-tools/inject".data),
   ("@analog-tools/logger".data), ("@analog-tools/session".data)]

/-- `ensureAuthPackages` (lines 48-109): skip without `package.json` or
inside the analog-tools workspace; `JSON.parse` of a malformed
`package.json` throws (uncaught, hence propagated); otherwise add the
missing packages at the generator's version.  The returned flag models
the `addDependenciesToPackageJson` install task. -/
def ensureAuthPackages (t : GenTree) : Except InitError (GenTree × Bool) :=
  match t.pkgJson with
  | none => .ok (t, false)
  | some (.error _) => .error .pkgParseError
  | some (.ok pj) =>
    if pj.name = some ("analog-tools".data) ∨ pj.name = some ("@analog-tools/root".data) then
      .ok (t, false)
    else
      let missing := requiredAuthPackages.filter
        (fun p => ¬ (p ∈ pj.dependencies ∨ p ∈ pj.devDependencies))
      if missing = [] then .ok (t, false)
      else
        let _version := getGeneratorVersion t
        .ok ({ t with pkgJson := some (.ok
          { pj with dependencies := pj.dependencies ++ missing }) }, true)

/-- `updateAppConfig` (lines 114-218) at tree level: skip a missing
file, skip when the auth import is already present, else write back
the import insertion followed by the providers/interceptor step. -/
def updateAppConfig (t : GenTree) (path : Str) : GenTree :=
  match fRead t.files path with
  | none => t
  | some content =>
    if hasSub content authAngularMarker then t
    else { t with files := fWrite t.files path (providersStep (addAuthImport content)) }

/-- The generator's `updateViteConfig` at tree level: the transformed
text is always written back. -/
def updateViteConfigNx (t : GenTree) (path : Str) : GenTree :=
  match fRead t.files path with
  | none => t
  | some content =>
    { t with files := fWrite t.files path (updateViteConfigNoExternal content) }

/-- `findViteConfigPath` of the generator file (lines 295-304). -/
def findViteConfigPathGen (t : GenTree) (projectRoot : Str) : Option Str :=
  ([("vite.config.ts".data), ("vite.config.mts".data), ("vite.config.js".data),
    ("vite.config.mjs".data)].map (fun f => pathJoin projectRoot f)).find?
    (fun p => fExists t.files p)

/-- The `auth.config.ts` template written by step 1. -/
def authConfigContent : Str :=
  "import \x7b AnalogAuthConfig \x7d from '@analog-tools/auth';\n\nexport const authConfig: AnalogAuthConfig = \x7b\n  issuer: process.env['AUTH_ISSUER'] || '',\n  clientId: process.env['AUTH_CLIENT_ID'] || '',\n  clientSecret: process.env['AUTH_CLIENT_SECRET'] || '',\n  audience: process.env['AUTH_AUDIENCE'] || '',\n  scope: process.env['AUTH_SCOPE'] || 'openid profile email',\n  callbackUri: process.env['AUTH_CALLBACK_URL'] || '',\n  unprotectedRoutes: [],\n\n  sessionStorage: \x7b\n    type: 'redis',\n    config: \x7b\n      url: process.env['REDIS_URL'] || 'redis://localhost:6379',\n      sessionSecret: process.env['SESSION_SECRET'] || 'default-dev-secret',\n      ttl: 86400, // 24 hours\n    \x7d,\n  \x7d,\n\x7d;\n".data

/-- The auth middleware template written by step 2. -/
def authMiddlewareContent : Str :=
  "import \x7b useAnalogAuth \x7d from '@analog-tools/auth';\nimport \x7b defineEventHandler, H3Event \x7d from 'h3';\nimport \x7b authConfig \x7d from '../../auth.config';\n\n/**\n * Authentication middleware for protected API routes\n * To be used with Analog.js middleware structure\n */\nexport default defineEventHandler(async (event: H3Event) => \x7b\n  return useAnalogAuth(authConfig, event);\n\x7d);\n".data

/-- `initAuthGenerator` (lines 306-412): a project-configuration read
failure propagates; a non-application project throws before any write;
then packages are ensured (a malformed `package.json` propagates as
`pkgParseError`), `auth.config.ts` and the middleware are written,
`app.config.ts` and `vite.config.*` are patched, and the tree is
returned with the install flag.  `formatFiles` is external
pretty-printing, modelled as the identity. -/
def initAuthGenerator (t : GenTree) : Except InitError (GenTree × Bool) :=
  match t.projCfg with
  | .error _ => .error .projReadError
  | .ok cfg =>
    if cfg.projectType ≠ some ("application".data) then .error .notApplication
    else
      match ensureAuthPackages t with
      | .error e => .error e
      | .ok (t1, installTask) =>
        let t2 := { t1 with files := (fWrite t1.files (pathJoin cfg.root ("src/auth.config.ts".data)) authConfigContent) }
        let t3 := { t2 with files := (fWrite t2.files (pathJoin (pathJoin cfg.root ("src/server/middleware".data)) ("auth.ts".data)) authMiddlewareContent) }
        let t4 := updateAppConfig t3 (pathJoin cfg.root ("src/app/app.config.ts".data))
        let t5 := match findViteConfigPathGen t4 cfg.root with
          | some p => updateViteConfigNx t4 p
          | none => t4
        .ok (t5, installTask)

/-- Argument texts of the shapes named by the comment-safety claim:
whitespace only, the empty object literal, or one block comment (whose
body avoids the comment-closing characters, brackets and string
delimiters, so that both the bracket scanner and the comment stripper
treat it uniformly). -/
def EmptyishArg (a : Str) : Prop :=
  (∀ c ∈ a, isWs c = true)
  ∨ a = [obrace, cbrace]
  ∨ (∃ b, a = ("/*".data) ++ b ++ ("*/".data)
      ∧ ∀ c ∈ b, c ≠ '/' ∧ c ≠ '*' ∧ c ≠ '(' ∧ c ≠ ')' ∧ isQuoteChar c = false)

/-!  ## Theorems -/

/-- C1: the claim asserts `patch(patch(T, I), I) = patch(T, I)` for every
text and intent.  The code has no containment check in its
`additionalPagesDirs`/`additionalAPIDirs` append branches, so a second
application appends the directory literal again: patching `analog()`
twice (libSrcRoot `l`, pages intent) yields
`additionalPagesDirs: ['l/pages', 'l/pages']`, different from the single
application.  This evaluates the code at that failing input. -/
theorem c1_double_apply_diverges :
    updateViteConfig
        (updateViteConfig ("analog()".data) ("l".data) ⟨none, some false⟩)
        ("l".data) ⟨none, some false⟩
      ≠ updateViteConfig ("analog()".data) ("l".data) ⟨none, some false⟩ := by
  decide

/-- C2: the claim asserts that text already satisfying an intent is
returned byte-identical.  For the EnsureArrayContains intent the pages
branch appends the literal even when it is already present: on
`analog({ liveReload: true, additionalPagesDirs: ['libs/ui/src/pages'] })`
with libSrcRoot `libs/ui/src` the output differs from the input (the
literal is duplicated).  This evaluates the code at that failing
input. -/
theorem c2_satisfied_intent_not_noop :
    updateViteConfig
        ("analog(\x7b liveReload: true, additionalPagesDirs: ['libs/ui/src/pages'] \x7d)".data)
        ("libs/ui/src".data) ⟨none, some false⟩
      ≠ ("analog(\x7b liveReload: true, additionalPagesDirs: ['libs/ui/src/pages'] \x7d)".data) := by
  decide

/-- C5: the claim asserts a later edit never discards text inserted by an
earlier edit, so any input lacking `liveReload` ends up containing
`liveReload: true`.  The pages branch rebuilds from `analogContent` (the
pre-liveReload text) instead of `newAnalogContent`, so on
`analog({ additionalPagesDirs: ['x'] })` the just-inserted
`liveReload: true` is discarded and absent from the output.  This
evaluates the code at that failing input. -/
theorem c5_live_reload_discarded :
    hasSub
        (updateViteConfig ("analog(\x7b additionalPagesDirs: ['x'] \x7d)".data)
          ("l".data) ⟨none, some false⟩)
        ("liveReload".data) = false := by
  decide

/-- C7: populating an empty `analog()` call inserts the option keys in
the stable order liveReload, additionalPagesDirs, additionalAPIDirs;
with the api intent disabled the api key is absent and the first two
keep their order. -/
theorem c7_key_order :
    (updateViteConfig ("analog()".data) ("p".data) ⟨none, none⟩
        = ("analog(\x7b\n        liveReload: true,\n        additionalPagesDirs: ['p/pages'],\n        additionalAPIDirs: ['p/backend/api']\n      \x7d)".data)
      ∧ (indexOfSub ("liveReload:".data)
            (updateViteConfig ("analog()".data) ("p".data) ⟨none, none⟩)).getD 1000
          < (indexOfSub ("additionalPagesDirs:".data)
              (updateViteConfig ("analog()".data) ("p".data) ⟨none, none⟩)).getD 1000
      ∧ (indexOfSub ("additionalPagesDirs:".data)
            (updateViteConfig ("analog()".data) ("p".data) ⟨none, none⟩)).getD 1000
          < (indexOfSub ("additionalAPIDirs:".data)
              (updateViteConfig ("analog()".data) ("p".data) ⟨none, none⟩)).getD 1000)
    ∧ ((indexOfSub ("liveReload:".data)
            (updateViteConfig ("analog()".data) ("p".data) ⟨none, some false⟩)).getD 1000
          < (indexOfSub ("additionalPagesDirs:".data)
              (updateViteConfig ("analog()".data) ("p".data) ⟨none, some false⟩)).getD 1000
      ∧ (indexOfSub ("additionalAPIDirs:".data)
            (updateViteConfig ("analog()".data) ("p".data) ⟨none, some false⟩)) = none) := by
  decide

/-- C4: when the `analog(` marker is absent, or when the scan's depth
counter never returns to zero before end-of-input, `updateViteConfig`
returns the input text unchanged — no partial splice is produced. -/
theorem c4_unbalanced_or_missing_unchanged (content libSrcRoot : Str) (o : VCOptions) :
    (analogStartIdx content = none → updateViteConfig content libSrcRoot o = content)
    ∧ (∀ sp, analogStartIdx content = some sp → findParenClose content sp = none →
        updateViteConfig content libSrcRoot o = content) := by
  constructor
  · intro h
    simp only [updateViteConfig, h]
  · intro sp h1 h2
    simp only [updateViteConfig, h1, h2]

/-- C4 witness: a text without any `analog(` call and a text whose
`analog((` parentheses never balance are both returned unchanged. -/
theorem c4_witness :
    updateViteConfig ("export default 42".data) ("p".data) ⟨none, none⟩
        = ("export default 42".data)
    ∧ updateViteConfig ("analog((".data) ("p".data) ⟨none, none⟩ = ("analog((".data) :=
  ⟨(c4_unbalanced_or_missing_unchanged _ _ _).1 (by decide),
   (c4_unbalanced_or_missing_unchanged _ _ _).2 7 (by decide) (by decide)⟩

/-- Helper: while the scanner is inside a `'`-string, characters that are
neither the closing quote nor a backslash leave the state unchanged; the
closing quote exits the string and the following `)` ends the scan. -/
theorem scanCloseGo_inString (post : Str) :
    ∀ (s : Str) (prev : Char) (idx : Nat), prev ≠ '\\' →
      (∀ c ∈ s, c ≠ '\'' ∧ c ≠ '\\') →
      scanCloseGo (s ++ '\'' :: ')' :: post) prev 1 (some '\'') idx
        = some (idx + s.length + 1) := by
  intro s
  induction s with
  | nil =>
    intro prev idx hprev _
    have hb : (prev != '\\') = true := by simp [hprev]
    simp [scanCloseGo, hb, isQuoteChar, btick]
  | cons c s' ih =>
    intro prev idx hprev hs
    have hc := hs c (List.mem_cons_self c s')
    have hs' : ∀ x ∈ s', x ≠ '\'' ∧ x ≠ '\\' :=
      fun x hx => hs x (List.mem_cons_of_mem _ hx)
    have hb : (prev != '\\') = true := by simp [hprev]
    have step : scanCloseGo ((c :: s') ++ '\'' :: ')' :: post) prev 1 (some '\'') idx
        = scanCloseGo (s' ++ '\'' :: ')' :: post) c 1 (some '\'') (idx + 1) := by
      by_cases hq : isQuoteChar c = true
      · simp [scanCloseGo, hq, hb, hc.1]
      · simp [scanCloseGo, hq]
    rw [step, ih c (idx + 1) hc.2 hs']
    congr 1
    simp
    omega

/-- C3 (amended): string safety of the balanced-delimiter scanner.  For
every string body `s` free of the delimiter `'` and of `\` — `s` may
freely contain `(` and `)` — the scan of `analog('<s>')` ignores the
bracket characters inside the string literal and returns the position of
the real closing parenthesis of the outer call.  (The comment half of
the original claim is refuted by `c3_comment_paren_counted`.) -/
theorem c3_string_safety (s : Str)
    (h : ∀ c ∈ s, c ≠ '\'' ∧ c ≠ '\\') :
    analogClose (("analog('".data) ++ s ++ ("')".data)) = some (s.length + 9) := by
  have h1 : analogClose (("analog('".data) ++ s ++ ("')".data))
      = scanCloseGo (s ++ '\'' :: ')' :: []) '\'' 1 (some '\'') 8 := rfl
  rw [h1, scanCloseGo_inString [] s '\'' 8 (by decide) h]
  congr 1
  omega

/-- C3 witness: the crafted fixture from the specification,
`analog('http://a)b')`, is scanned to the real outer closing
parenthesis. -/
theorem c3_string_safety_witness :
    analogClose (("analog('".data) ++ ("http://a)b".data) ++ ("')".data))
      = some (("http://a)b".data).length + 9) :=
  c3_string_safety ("http://a)b".data) (by decide)

/-- C3 counterexample: the scanner does not track comments, so the `)`
inside the block comment of `analog(/* ) */)` is counted: the scan
answers position 10 (inside the comment) instead of the real closing
parenthesis of the outer call at position 14. -/
theorem c3_comment_paren_counted :
    analogClose ("analog(/* ) */)".data) = some 10
      ∧ analogClose ("analog(/* ) */)".data) ≠ some 14 := by
  decide

/-- Helper: outside any string, characters that are neither delimiters
nor parentheses leave the scanner state unchanged, and the next
code-position `)` ends the scan. -/
theorem scanCloseGo_code (post : Str) :
    ∀ (a : Str) (prev : Char) (idx : Nat),
      (∀ c ∈ a, isQuoteChar c = false ∧ c ≠ '(' ∧ c ≠ ')') →
      scanCloseGo (a ++ ')' :: post) prev 1 none idx = some (idx + a.length) := by
  intro a
  induction a with
  | nil =>
    intro prev idx _
    simp [scanCloseGo, isQuoteChar, btick]
  | cons c a' ih =>
    intro prev idx h
    have hc := h c (List.mem_cons_self c a')
    have h' : ∀ x ∈ a', isQuoteChar x = false ∧ x ≠ '(' ∧ x ≠ ')' :=
      fun x hx => h x (List.mem_cons_of_mem _ hx)
    have step : scanCloseGo ((c :: a') ++ ')' :: post) prev 1 none idx
        = scanCloseGo (a' ++ ')' :: post) c 1 none (idx + 1) := by
      simp [scanCloseGo, hc.1, hc.2.1, hc.2.2]
    rw [step, ih c (idx + 1) h']
    congr 1
    simp
    omega

/-- Helper: the block-comment mode of `removeComments` elides a body
free of `/` and `*` together with its terminator, emitting nothing. -/
theorem rcGo_block_elide (b : Str) (h : ∀ c ∈ b, c ≠ '/' ∧ c ≠ '*') :
    rcGo .blockC (b ++ '*' :: '/' :: []) = [] := by
  induction b with
  | nil => rfl
  | cons x b' ih =>
    have hx := h x (List.mem_cons_self x b')
    have h' : ∀ c ∈ b', c ≠ '/' ∧ c ≠ '*' :=
      fun c hc => h c (List.mem_cons_of_mem _ hc)
    have step : rcGo .blockC ((x :: b') ++ '*' :: '/' :: [])
        = rcGo .blockC (b' ++ '*' :: '/' :: []) := by
      cases b' with
      | nil => simp [rcGo, hx.2]
      | cons y b'' => simp [rcGo, hx.2]
    rw [step, ih h']

/-- Helper: `removeComments` of one whole block comment with a safe body
is the empty string. -/
theorem removeComments_block (b : Str) (h : ∀ c ∈ b, c ≠ '/' ∧ c ≠ '*') :
    removeComments (("/*".data) ++ b ++ ("*/".data)) = [] :=
  rcGo_block_elide b h

/-- Helper: `trim` of all-whitespace text is empty. -/
theorem trim_of_all_ws (a : Str) (h : ∀ c ∈ a, isWs c = true) : trim a = [] := by
  unfold trim trimL trimR
  have h2 : a.reverse.dropWhile (fun c => isWs c) = [] := by
    rw [List.dropWhile_eq_nil_iff]
    intro x hx
    exact h x (List.mem_reverse.mp hx)
  rw [h2]
  rfl

/-- Helper: `trim` of a block comment is itself (it starts and ends with
the non-whitespace `/`). -/
theorem trim_block (b : Str) :
    trim (("/*".data) ++ b ++ ("*/".data)) = ("/*".data) ++ b ++ ("*/".data) := by
  unfold trim trimL trimR
  rw [show (("/*".data) ++ b ++ ("*/".data)).reverse
      = '/' :: '*' :: (b.reverse ++ '*' :: '/' :: []) by simp]
  simp [isWs]

/-- Helper: every `EmptyishArg` text is scanner-safe: no delimiter and no
parenthesis characters. -/
theorem emptyish_chars (a : Str) (h : EmptyishArg a) :
    ∀ c ∈ a, isQuoteChar c = false ∧ c ≠ '(' ∧ c ≠ ')' := by
  rcases h with hws | rfl | ⟨b, rfl, hb⟩
  · intro c hc
    have hw := hws c hc
    refine ⟨?_, ?_, ?_⟩
    · by_contra hq
      simp only [Bool.not_eq_false] at hq
      simp only [isQuoteChar, Bool.or_eq_true, decide_eq_true_eq] at hq
      rcases hq with (h | h) | h <;> subst h <;> exact absurd hw (by decide)
    · intro h
      subst h
      exact absurd hw (by decide)
    · intro h
      subst h
      exact absurd hw (by decide)
  · intro c hc
    have h2 : c = obrace ∨ c = cbrace := by simpa using hc
    rcases h2 with rfl | rfl <;> exact ⟨by decide, by decide, by decide⟩
  · intro c hc
    rcases List.mem_append.mp hc with h1 | h2
    · rcases List.mem_append.mp h1 with h3 | h4
      · have h5 : c = '/' ∨ c = '*' := by simpa using h3
        rcases h5 with rfl | rfl <;> exact ⟨by decide, by decide, by decide⟩
      · have hcb := hb c h4
        exact ⟨hcb.2.2.2.2, hcb.2.2.1, hcb.2.2.2.1⟩
    · have h5 : c = '*' ∨ c = '/' := by simpa using h2
      rcases h5 with rfl | rfl <;> exact ⟨by decide, by decide, by decide⟩

/-- Helper: every `EmptyishArg` text passes the emptiness check of
lines 191-194 after trimming. -/
theorem emptyish_empty_check (a : Str) (h : EmptyishArg a) :
    analogArgIsEmpty (trim a) = true := by
  rcases h with hws | rfl | ⟨b, rfl, hb⟩
  · rw [trim_of_all_ws a hws]
    decide
  · decide
  · rw [trim_block b]
    unfold analogArgIsEmpty
    rw [removeComments_block b (fun c hc => ⟨(hb c hc).1, (hb c hc).2.1⟩)]
    decide

/-- Helper: texts passing the emptiness check are freshly repopulated. -/
theorem rewrite_of_empty (x libSrcRoot : Str) (o : VCOptions)
    (h : analogArgIsEmpty x = true) :
    rewriteAnalogContent x libSrcRoot o = freshAnalogOptions libSrcRoot o := by
  unfold rewriteAnalogContent
  simp [h]

/-- C6: an `analog` call whose argument list is entirely a block comment,
only whitespace, or the empty object literal is classified as empty and
freshly populated with the new options object, producing exactly the
output of the zero-argument `analog()` case. -/
theorem c6_emptyish_population (a libSrcRoot : Str) (o : VCOptions) (h : EmptyishArg a) :
    updateViteConfig (("analog(".data) ++ a ++ (")".data)) libSrcRoot o
      = updateViteConfig ("analog()".data) libSrcRoot o := by
  have hstart : analogStartIdx (("analog(".data) ++ a ++ (")".data)) = some 7 := rfl
  have hassoc : ("analog(".data) ++ a ++ (")".data)
      = ("analog(".data) ++ (a ++ (")".data)) := List.append_assoc _ _ _
  have hdrop7 : (("analog(".data) ++ a ++ (")".data)).drop 7 = a ++ (')' :: []) := by
    rw [hassoc]
    exact List.drop_left' (by rfl)
  have hclose : findParenClose (("analog(".data) ++ a ++ (")".data)) 7
      = some (7 + a.length) := by
    show scanCloseGo ((("analog(".data) ++ a ++ (")".data)).drop 7) '(' 1 none 7
        = some (7 + a.length)
    rw [hdrop7]
    exact scanCloseGo_code [] a '(' 7 (emptyish_chars a h)
  have htake7 : (("analog(".data) ++ a ++ (")".data)).take 7 = "analog(".data := by
    rw [hassoc]
    exact List.take_left' (by rfl)
  have hmid : ((("analog(".data) ++ a ++ (")".data)).take (7 + a.length)).drop 7 = a := by
    rw [hassoc]
    rw [show (7 : Nat) + a.length = ("analog(".data).length + a.length from rfl]
    rw [List.take_append a.length, List.take_left]
    exact List.drop_left' (by rfl)
  have hdropEnd : (("analog(".data) ++ a ++ (")".data)).drop (7 + a.length) = ')' :: [] := by
    rw [hassoc]
    rw [show (7 : Nat) + a.length = ("analog(".data).length + a.length from rfl]
    rw [List.drop_append a.length]
    exact List.drop_left a (')' :: [])
  have hR : updateViteConfig ("analog()".data) libSrcRoot o
      = ("analog(".data) ++ rewriteAnalogContent ([]) libSrcRoot o ++ (')' :: []) := rfl
  have hL : updateViteConfig (("analog(".data) ++ a ++ (")".data)) libSrcRoot o
      = ("analog(".data) ++ rewriteAnalogContent (trim a) libSrcRoot o ++ (')' :: []) := by
    simp only [updateViteConfig, hstart, hclose]
    rw [htake7, hmid, hdropEnd]
  rw [hL, hR]
  rw [rewrite_of_empty (trim a) libSrcRoot o (emptyish_empty_check a h)]
  rw [rewrite_of_empty ([]) libSrcRoot o (by decide)]

/-- C6 witness: the specification's `analog(/* */)` fixture is an
`EmptyishArg` call and is populated exactly like `analog()`. -/
theorem c6_emptyish_population_witness :
    EmptyishArg (("/*".data) ++ (" ".data) ++ ("*/".data))
      ∧ updateViteConfig (("analog(".data) ++ (("/*".data) ++ (" ".data) ++ ("*/".data)) ++ (")".data))
          ("p".data) ⟨none, none⟩
        = updateViteConfig ("analog()".data) ("p".data) ⟨none, none⟩ :=
  ⟨Or.inr (Or.inr ⟨(" ".data), rfl, by decide⟩),
   c6_emptyish_population (("/*".data) ++ (" ".data) ++ ("*/".data)) ("p".data) ⟨none, none⟩
     (Or.inr (Or.inr ⟨(" ".data), rfl, by decide⟩))⟩

/-- Helper: a literal eats exactly itself. -/
theorem eatLit_self (lit t : Str) : eatLit lit (lit ++ t) = some t := by
  unfold eatLit
  rw [if_pos, List.drop_left]
  rw [List.isPrefixOf_iff_prefix]
  exact List.prefix_append lit t

/-- Helper: a one-character literal eats its character. -/
theorem eatLit_cons (c : Char) (t : Str) : eatLit [c] (c :: t) = some t :=
  eatLit_self [c] t

/-- Helper: `\s+` on a single space followed by non-whitespace. -/
theorem eatWsPlus_one (x : Char) (t : Str) (hx : isWs x = false) :
    eatWsPlus (' ' :: x :: t) = some (x :: t) := by
  simp [eatWsPlus, List.dropWhile, hx, show isWs ' ' = true from by decide]

/-- Helper: a greedy nonempty class run eats exactly the maximal run. -/
theorem eatRun1_append (p : Char → Bool) (l : Str) (x : Char) (t : Str)
    (hl : l ≠ []) (hall : ∀ c ∈ l, p c = true) (hx : p x = false) :
    eatRun1 p (l ++ x :: t) = some (x :: t) := by
  cases l with
  | nil => exact absurd rfl hl
  | cons c l' =>
    have hc := hall c (List.mem_cons_self c l')
    simp only [List.cons_append, eatRun1, hc, if_true]
    rw [List.dropWhile_append_of_pos (fun a ha => hall a (List.mem_cons_of_mem _ ha))]
    simp [List.dropWhile, hx]

/-- Helper: `\s*\n` on a newline followed by non-whitespace (or
end-of-input) eats exactly the newline. -/
theorem eatWsNl_nl (t : Str) (h : ∀ c, t.head? = some c → isWs c = false) :
    eatWsNl ('\n' :: t) = some t := by
  have hw : ('\n' :: t).takeWhile (fun c => isWs c) = ['\n'] := by
    cases t with
    | nil => rfl
    | cons c r =>
      have := h c rfl
      simp [List.takeWhile, this, show isWs '\n' = true from by decide]
  simp only [eatWsNl, hw]
  rfl

/-- Helper: a single-character class eats a member character. -/
theorem eatCharIn_cons (cs : Str) (c : Char) (t : Str) (h : c ∈ cs) :
    eatCharIn cs (c :: t) = some t := by
  simp [eatCharIn, h]

/-- Helper: the import group matches one well-formed rendered import
line exactly, leaving the rest (which must not start with whitespace,
so that the final `\s*\n` stops at the line's own newline). -/
theorem matchOneImport_render (b m rest : Str)
    (hb : b ≠ []) (hbc : ∀ c ∈ b, c ≠ cbrace)
    (hm : m ≠ []) (hmc : ∀ c ∈ m, c ≠ '\'' ∧ c ≠ '"')
    (hrest : ∀ c, rest.head? = some c → isWs c = false) :
    matchOneImport (renderImportLine b m ++ rest) = some rest := by
  have hIn : renderImportLine b m ++ rest
      = 'i' :: 'm' :: 'p' :: 'o' :: 'r' :: 't' :: ' ' :: obrace ::
          (b ++ (cbrace :: ' ' :: 'f' :: 'r' :: 'o' :: 'm' :: ' ' :: '\'' ::
            (m ++ ('\'' :: ';' :: '\n' :: rest)))) := by
    simp only [renderImportLine, List.append_assoc, List.cons_append]
    rfl
  have h1 : eatLit ("import".data)
        ('i' :: 'm' :: 'p' :: 'o' :: 'r' :: 't' :: ' ' :: obrace ::
          (b ++ (cbrace :: ' ' :: 'f' :: 'r' :: 'o' :: 'm' :: ' ' :: '\'' ::
            (m ++ ('\'' :: ';' :: '\n' :: rest)))))
      = some (' ' :: obrace ::
          (b ++ (cbrace :: ' ' :: 'f' :: 'r' :: 'o' :: 'm' :: ' ' :: '\'' ::
            (m ++ ('\'' :: ';' :: '\n' :: rest))))) := rfl
  have h2 : eatWsPlus (' ' :: obrace ::
          (b ++ (cbrace :: ' ' :: 'f' :: 'r' :: 'o' :: 'm' :: ' ' :: '\'' ::
            (m ++ ('\'' :: ';' :: '\n' :: rest)))))
      = some (obrace ::
          (b ++ (cbrace :: ' ' :: 'f' :: 'r' :: 'o' :: 'm' :: ' ' :: '\'' ::
            (m ++ ('\'' :: ';' :: '\n' :: rest))))) :=
    eatWsPlus_one obrace _ (by decide)
  have h3 : eatLit [obrace] (obrace ::
          (b ++ (cbrace :: ' ' :: 'f' :: 'r' :: 'o' :: 'm' :: ' ' :: '\'' ::
            (m ++ ('\'' :: ';' :: '\n' :: rest)))))
      = some (b ++ (cbrace :: ' ' :: 'f' :: 'r' :: 'o' :: 'm' :: ' ' :: '\'' ::
            (m ++ ('\'' :: ';' :: '\n' :: rest)))) :=
    eatLit_cons obrace _
  have h4 : eatRun1 (fun c => c != cbrace)
        (b ++ (cbrace :: ' ' :: 'f' :: 'r' :: 'o' :: 'm' :: ' ' :: '\'' ::
            (m ++ ('\'' :: ';' :: '\n' :: rest))))
      = some (cbrace :: ' ' :: 'f' :: 'r' :: 'o' :: 'm' :: ' ' :: '\'' ::
            (m ++ ('\'' :: ';' :: '\n' :: rest))) :=
    eatRun1_append _ b cbrace _ hb
      (fun c hc => by simp [hbc c hc]) (by simp)
  have h5 : eatLit [cbrace] (cbrace :: ' ' :: 'f' :: 'r' :: 'o' :: 'm' :: ' ' :: '\'' ::
            (m ++ ('\'' :: ';' :: '\n' :: rest)))
      = some (' ' :: 'f' :: 'r' :: 'o' :: 'm' :: ' ' :: '\'' ::
            (m ++ ('\'' :: ';' :: '\n' :: rest))) :=
    eatLit_cons cbrace _
  have h6 : eatWsPlus (' ' :: 'f' :: 'r' :: 'o' :: 'm' :: ' ' :: '\'' ::
            (m ++ ('\'' :: ';' :: '\n' :: rest)))
      = some ('f' :: 'r' :: 'o' :: 'm' :: ' ' :: '\'' :: (m ++ ('\'' :: ';' :: '\n' :: rest))) :=
    eatWsPlus_one 'f' _ (by decide)
  have h7 : eatLit ("from".data)
        ('f' :: 'r' :: 'o' :: 'm' :: ' ' :: '\'' :: (m ++ ('\'' :: ';' :: '\n' :: rest)))
      = some (' ' :: '\'' :: (m ++ ('\'' :: ';' :: '\n' :: rest))) := rfl
  have h8 : eatWsPlus (' ' :: '\'' :: (m ++ ('\'' :: ';' :: '\n' :: rest)))
      = some ('\'' :: (m ++ ('\'' :: ';' :: '\n' :: rest))) :=
    eatWsPlus_one '\'' _ (by decide)
  have h9 : eatCharIn ("'\"".data) ('\'' :: (m ++ ('\'' :: ';' :: '\n' :: rest)))
      = some (m ++ ('\'' :: ';' :: '\n' :: rest)) :=
    eatCharIn_cons _ _ _ (by decide)
  have h10 : eatRun1 (fun c => c != '\'' && c != '"')
        (m ++ ('\'' :: ';' :: '\n' :: rest))
      = some ('\'' :: ';' :: '\n' :: rest) :=
    eatRun1_append _ m '\'' _ hm
      (fun c hc => by simp [(hmc c hc).1, (hmc c hc).2]) (by simp)
  have h11 : eatCharIn ("'\"".data) ('\'' :: ';' :: '\n' :: rest)
      = some (';' :: '\n' :: rest) :=
    eatCharIn_cons _ _ _ (by decide)
  have h12 : eatOptChar ';' (';' :: '\n' :: rest) = '\n' :: rest := by
    simp [eatOptChar]
  have h13 : eatWsNl ('\n' :: rest) = some rest := eatWsNl_nl rest hrest
  rw [hIn]
  simp only [matchOneImport, h1, h2, h3, h4, h5, h6, h7, h8, h9, h10, h11, h12, h13]

/-- Helper: the import group cannot match at a position that does not
start with an `i`. -/
theorem matchOneImport_none (post : Str) (h : ∀ c, post.head? = some c → c ≠ 'i') :
    matchOneImport post = none := by
  cases post with
  | nil => rfl
  | cons c r =>
    have hc := h c rfl
    have hif : (('i' : Char) == c) = false := beq_eq_false_iff_ne.mpr (Ne.symm hc)
    simp [matchOneImport, eatLit, List.isPrefixOf, hif]

/-- Helper: a rendered import block followed by non-whitespace text does
not start with whitespace. -/
theorem renderLines_head_not_ws (L : List (Str × Str)) (post : Str)
    (hpost : ∀ c, post.head? = some c → isWs c = false ∧ c ≠ 'i') :
    ∀ c, (renderImportLines L ++ post).head? = some c → isWs c = false := by
  cases L with
  | nil =>
    intro c hc
    simp only [renderImportLines, List.nil_append] at hc
    exact (hpost c hc).1
  | cons q L' =>
    obtain ⟨b2, m2⟩ := q
    intro c hc
    rw [show (renderImportLines ((b2, m2) :: L') ++ post).head? = some 'i' from rfl] at hc
    injection hc with h
    subst h
    decide

/-- Helper: the greedy repetition consumes exactly a whole well-formed
block of imports, given enough fuel. -/
theorem importRunEndF_render (L : List (Str × Str)) :
    ∀ (fuel : Nat) (post : Str), L.length < fuel →
      (∀ p ∈ L, p.1 ≠ [] ∧ (∀ c ∈ p.1, c ≠ cbrace) ∧ p.2 ≠ []
        ∧ (∀ c ∈ p.2, c ≠ '\'' ∧ c ≠ '"')) →
      (∀ c, post.head? = some c → isWs c = false ∧ c ≠ 'i') →
      importRunEndF fuel (renderImportLines L ++ post) = post := by
  induction L with
  | nil =>
    intro fuel post hfuel _ hpost
    cases fuel with
    | zero => omega
    | succ f =>
      simp only [renderImportLines, List.nil_append, importRunEndF,
        matchOneImport_none post (fun c hc => (hpost c hc).2)]
  | cons p L' ih =>
    obtain ⟨b, m⟩ := p
    intro fuel post hfuel hwf hpost
    cases fuel with
    | zero => omega
    | succ f =>
      have hwfp := hwf (b, m) (List.mem_cons_self _ _)
      have hwf' := fun q hq => hwf q (List.mem_cons_of_mem _ hq)
      have hone : matchOneImport (renderImportLine b m ++ (renderImportLines L' ++ post))
          = some (renderImportLines L' ++ post) :=
        matchOneImport_render b m _ hwfp.1 hwfp.2.1 hwfp.2.2.1 hwfp.2.2.2
          (renderLines_head_not_ws L' post hpost)
      have hshape : renderImportLines ((b, m) :: L') ++ post
          = renderImportLine b m ++ (renderImportLines L' ++ post) := by
        simp [renderImportLines, List.append_assoc]
      rw [hshape]
      simp only [importRunEndF, hone]
      exact ih f post (by simp only [List.length_cons] at hfuel; omega) hwf' hpost

/-- Helper: each rendered import line is nonempty, so a block is at
least as long as its line count. -/
theorem renderImportLines_length (L : List (Str × Str)) :
    L.length ≤ (renderImportLines L).length := by
  induction L with
  | nil => simp [renderImportLines]
  | cons p L' ih =>
    obtain ⟨b, m⟩ := p
    simp only [renderImportLines, List.length_append, List.length_cons]
    have h1 : 1 ≤ (renderImportLine b m).length := by
      simp [renderImportLine, List.length_append]
    omega

/-- Helper: a position matcher succeeding at position 0 is the leftmost
match. -/
theorem findMatchIdx_head {α : Type} (f : Str → Option α) (s : Str) (a : α)
    (h : f s = some a) : findMatchIdx f s = some (0, a) := by
  cases s with
  | nil => simp [findMatchIdx, h]
  | cons c rest => simp [findMatchIdx, h]

/-- Helper: on a well-formed import block followed by non-import text,
the import-block regex matches at position 0 and consumes exactly the
block. -/
theorem findImportRun_render (L : List (Str × Str)) (post : Str)
    (hL : L ≠ [])
    (hwf : ∀ p ∈ L, p.1 ≠ [] ∧ (∀ c ∈ p.1, c ≠ cbrace) ∧ p.2 ≠ []
      ∧ (∀ c ∈ p.2, c ≠ '\'' ∧ c ≠ '"'))
    (hpost : ∀ c, post.head? = some c → isWs c = false ∧ c ≠ 'i') :
    findImportRun (renderImportLines L ++ post)
      = some (0, (renderImportLines L).length) := by
  have hfuel : L.length < (renderImportLines L ++ post).length + 1 := by
    have h1 := renderImportLines_length L
    simp only [List.length_append]
    omega
  have hrun : importRunEnd (renderImportLines L ++ post) = post := by
    unfold importRunEnd
    exact importRunEndF_render L _ post hfuel hwf hpost
  obtain ⟨p, L', rfl⟩ := List.exists_cons_of_ne_nil hL
  obtain ⟨b, m⟩ := p
  have hwfp := hwf (b, m) (List.mem_cons_self _ _)
  have hshape : renderImportLines ((b, m) :: L') ++ post
      = renderImportLine b m ++ (renderImportLines L' ++ post) := by
    simp [renderImportLines, List.append_assoc]
  have hone : matchOneImport (renderImportLine b m ++ (renderImportLines L' ++ post))
      = some (renderImportLines L' ++ post) :=
    matchOneImport_render b m _ hwfp.1 hwfp.2.1 hwfp.2.2.1 hwfp.2.2.2
      (renderLines_head_not_ws L' post hpost)
  have hiso : (matchOneImport (renderImportLines ((b, m) :: L') ++ post)).isSome = true := by
    rw [hshape, hone]
    rfl
  unfold findImportRun
  refine findMatchIdx_head _ _ _ ?_
  show (if (matchOneImport (renderImportLines ((b, m) :: L') ++ post)).isSome
        then some ((renderImportLines ((b, m) :: L') ++ post).length
          - (importRunEnd (renderImportLines ((b, m) :: L') ++ post)).length)
        else none)
      = some ((renderImportLines ((b, m) :: L')).length)
  rw [hiso, if_pos rfl, hrun]
  simp [List.length_append]

/-- C8 (amended): for every file that lacks an import of
`@analog-tools/auth/angular` and begins with a contiguous block of
well-formed import lines followed by non-whitespace, non-import text,
the auth import line is inserted immediately after the import block,
preserving every prior import byte-for-byte.  (When no import block
exists the content is returned without any insertion — see
`c8_no_import_block_no_insert` — not inserted at position 0 as the
original claim stated.) -/
theorem c8_insert_after_import_block (L : List (Str × Str)) (post : Str)
    (hL : L ≠ [])
    (hwf : ∀ p ∈ L, p.1 ≠ [] ∧ (∀ c ∈ p.1, c ≠ cbrace) ∧ p.2 ≠ []
      ∧ (∀ c ∈ p.2, c ≠ '\'' ∧ c ≠ '"'))
    (hpost : ∀ c, post.head? = some c → isWs c = false ∧ c ≠ 'i')
    (hmark : hasSub (renderImportLines L ++ post) authAngularMarker = false) :
    addAuthImport (renderImportLines L ++ post)
      = renderImportLines L ++ authImportLine ++ post := by
  unfold addAuthImport
  rw [hmark]
  simp only [Bool.false_eq_true, if_false,
    findImportRun_render L post hL hwf hpost]
  rw [Nat.zero_add, List.take_left, List.drop_left]

/-- C8 counterexample: on a file with no import block at all the
original claim demands insertion at position 0, but the code skips the
insertion entirely and returns the content unchanged. -/
theorem c8_no_import_block_no_insert :
    addAuthImport ("const a = 1;\n".data) = ("const a = 1;\n".data)
      ∧ addAuthImport ("const a = 1;\n".data)
          ≠ authImportLine ++ ("const a = 1;\n".data) := by
  decide

/-- C8 witness: a one-line import block followed by a constant
declaration receives the auth import right after the block. -/
theorem c8_insert_witness :
    addAuthImport (renderImportLines [(("A".data), ("m".data))] ++ ("const c = 0;\n".data))
      = renderImportLines [(("A".data), ("m".data))] ++ authImportLine
          ++ ("const c = 0;\n".data) :=
  c8_insert_after_import_block [(("A".data), ("m".data))] ("const c = 0;\n".data)
    (by decide) (by decide)
    (fun c hc => by
      rw [show (("const c = 0;\n".data) : Str).head? = some 'c' from rfl] at hc
      injection hc with h
      subst h
      exact ⟨by decide, by decide⟩)
    (by decide)

/-- Helper: a scope extracted from a scoped package name starts with
`@`. -/
theorem scopeFromName_at (name s : Str) (h : scopeFromName name = some s) :
    s.head? = some '@' := by
  unfold scopeFromName at h
  split at h
  · rename_i hcond
    obtain ⟨hhead, hmem⟩ := hcond
    cases name with
    | nil => simp at hhead
    | cons c n' =>
      simp only [List.head?_cons, Option.some.injEq] at hhead
      subst hhead
      injection h with h2
      subst h2
      have hne : ('@' : Char) ≠ '/' := by decide
      rw [List.indexOf_cons_ne _ hne]
      simp
  · exact absurd h (by simp)

/-- Helper: every scope found by the packages/libs scan starts with
`@`. -/
theorem scanCandidates_at (cs : List PkgCandidate) (s : Str)
    (h : scanCandidates cs = some s) : s.head? = some '@' := by
  induction cs with
  | nil => exact absurd h (by simp [scanCandidates])
  | cons c rest ih =>
    unfold scanCandidates at h
    split at h
    · rename_i hr
      injection h with h2
      subst h2
      by_cases hpk : c.hasPkgJson = true
      · rw [if_pos hpk] at hr
        split at hr
        · rename_i n hn
          exact scopeFromName_at n _ hr
        · exact absurd hr (by simp)
      · rw [if_neg hpk] at hr
        exact absurd hr (by simp)
    · exact ih h

/-- C9: every non-null result of `getWorkspaceScope` begins with `@`:
the `npmScope` path prefixes `@` when absent, and all package-name
paths only accept names that already start with `@`. -/
theorem c9_scope_starts_with_at (t : WsTree) (s : Str)
    (h : getWorkspaceScope t = some s) : s.head? = some '@' := by
  unfold getWorkspaceScope at h
  split at h
  · injection h with h2
    subst h2
    split
    · assumption
    · rfl
  · split at h
    · rename_i s' hdirs
      injection h with h2
      subst h2
      split at hdirs
      · rename_i cs hcs
        split at hdirs
        · rename_i t1 hscan
          injection hdirs with h3
          subst h3
          exact scanCandidates_at cs _ hscan
        · split at hdirs
          · rename_i cs2 hcs2
            exact scanCandidates_at cs2 _ hdirs
          · exact absurd hdirs (by simp)
      · split at hdirs
        · rename_i cs2 hcs2
          exact scanCandidates_at cs2 _ hdirs
        · exact absurd hdirs (by simp)
    · split at h
      · split at h
        · rename_i n hn
          exact scopeFromName_at n _ h
        · exact absurd h (by simp)
      · exact absurd h (by simp)

/-- C9 witness: a tree whose `nx.json` carries `npmScope: "acme"` yields
the `@`-prefixed scope `@acme`. -/
theorem c9_scope_starts_with_at_witness :
    getWorkspaceScope
        ⟨.ok (some (some (.jstr ("acme".data)))), none, none, false, .ok none⟩
      = some ("@acme".data)
    ∧ (("@acme".data) : Str).head? = some '@' :=
  ⟨by decide,
   c9_scope_starts_with_at
     ⟨.ok (some (some (.jstr ("acme".data)))), none, none, false, .ok none⟩
     ("@acme".data) (by decide)⟩

/-- Helper: the only exception `ensureAuthPackages` can raise is the
`JSON.parse` failure on a malformed root `package.json`. -/
theorem ensureAuthPackages_error (t : GenTree) (e : InitError)
    (h : ensureAuthPackages t = .error e) : e = .pkgParseError := by
  unfold ensureAuthPackages at h
  split at h
  · exact absurd h (by simp)
  · injection h with h2
    exact h2.symm
  · split at h
    · exact absurd h (by simp)
    · dsimp only at h
      split at h
      · exact absurd h (by simp)
      · exact absurd h (by simp)

/-- C10: `initAuthGenerator` rejects non-application projects atomically:
the `notApplication` exception is raised before any file is created or
modified (in this pure embedding an error result carries no tree, so no
write is观 performed), and for application projects the generator never
raises `notApplication`. -/
theorem c10_reject_non_application (t : GenTree) (cfg : ProjCfg)
    (h : t.projCfg = .ok cfg) :
    (cfg.projectType ≠ some ("application".data) →
      initAuthGenerator t = .error .notApplication)
    ∧ (cfg.projectType = some ("application".data) →
      initAuthGenerator t ≠ .error .notApplication) := by
  constructor
  · intro hty
    unfold initAuthGenerator
    simp only [h]
    rw [if_pos hty]
  · intro hty hcontra
    unfold initAuthGenerator at hcontra
    simp only [h] at hcontra
    rw [if_neg (by simp [hty])] at hcontra
    split at hcontra
    · rename_i e he
      injection hcontra with h3
      have h4 := ensureAuthPackages_error t e he
      exact absurd (h4.symm.trans h3) (by decide)
    · exact absurd hcontra (by simp)

/-- C10 witness: a library project is rejected with `notApplication`; an
application project is not rejected by that check. -/
theorem c10_reject_non_application_witness :
    initAuthGenerator ⟨[], .ok ⟨("apps/a".data), some ("library".data)⟩, none, none, none⟩
        = .error .notApplication
    ∧ initAuthGenerator ⟨[], .ok ⟨("apps/a".data), some ("application".data)⟩, none, none, none⟩
        ≠ .error .notApplication :=
  ⟨(c10_reject_non_application
      ⟨[], .ok ⟨("apps/a".data), some ("library".data)⟩, none, none, none⟩
      ⟨("apps/a".data), some ("library".data)⟩ rfl).1 (by decide),
   (c10_reject_non_application
      ⟨[], .ok ⟨("apps/a".data), some ("application".data)⟩, none, none, none⟩
      ⟨("apps/a".data), some ("application".data)⟩ rfl).2 (by decide)⟩
